import Mathlib

/-!
Service-control client: aggregation options and flush scheduling

A shallow embedding of `include/aggregation_options.h` (the three option
structs and their constructors) and of the parts of the aggregation engine
that are described for `src/service_control_client_impl.h`.

C++ `int` is a 32-bit signed integer.  Values are carried as `Int`; the one
arithmetic operation of the header, `flush_cache_entry_interval_ms + 1`, is
reduced into the 32-bit range with `wrapInt32` (two's complement, `% 2^32`).
-/

namespace google.service_control_client

/-! ## 32-bit signed integers -/

/-- Smallest value of a C++ `int`. -/
def INT_MIN : Int := -2147483648

/-- Largest value of a C++ `int`. -/
def INT_MAX : Int := 2147483647

/-- The value fits a C++ `int`. -/
def isInt32 (x : Int) : Prop := INT_MIN ≤ x ∧ x ≤ INT_MAX

instance (x : Int) : Decidable (isInt32 x) := by
  unfold isInt32; exact inferInstance

/-- Two's-complement reduction of a mathematical integer to 32 bits. -/
def wrapInt32 (x : Int) : Int := (x + 2147483648) % 4294967296 - 2147483648

/-- Result of `a + b` on C++ `int`, overflow wrapping modulo `2^32`. -/
def addInt32 (a b : Int) : Int := wrapInt32 (a + b)

/-! ## aggregation_options.h -/

/-- Default cache size. -/
def kDefaultQuotaCacheSize : Int := 10000

/-- Default refresh interval is 1 second. -/
def kDefaultQuotaRefreshInMs : Int := 1000

/-- Default quota expiration, one minute. -/
def kDefaultQuotaExpirationInMS : Int := 60000

/-- Fields of `struct QuotaAggregationOptions`. -/
structure QuotaAggregationOptions where
  num_entries : Int
  refresh_interval_ms : Int
  expiration_interval_ms : Int
  deriving DecidableEq, Repr

/-- Fields of `struct CheckAggregationOptions`. -/
structure CheckAggregationOptions where
  num_entries : Int
  flush_interval_ms : Int
  expiration_ms : Int
  deriving DecidableEq, Repr

/-- Fields of `struct ReportAggregationOptions`. -/
structure ReportAggregationOptions where
  num_entries : Int
  flush_interval_ms : Int
  deriving DecidableEq, Repr

/-- `QuotaAggregationOptions()`: the default constructor. -/
def QuotaAggregationOptions.default : QuotaAggregationOptions :=
  ⟨kDefaultQuotaCacheSize, kDefaultQuotaRefreshInMs, kDefaultQuotaExpirationInMS⟩

/-- `QuotaAggregationOptions(int cache_entries, int refresh_interval_ms,
int expiration_interval_ms)`: every member is initialised from its argument. -/
def QuotaAggregationOptions.new (cache_entries refresh_interval_ms
    expiration_interval_ms : Int) : QuotaAggregationOptions :=
  ⟨cache_entries, refresh_interval_ms, expiration_interval_ms⟩

/-- The same constructor with its defaulted third argument left out. -/
def QuotaAggregationOptions.new2 (cache_entries refresh_interval_ms : Int) :
    QuotaAggregationOptions :=
  QuotaAggregationOptions.new cache_entries refresh_interval_ms kDefaultQuotaExpirationInMS

/-- `CheckAggregationOptions()`: the default constructor. -/
def CheckAggregationOptions.default : CheckAggregationOptions :=
  ⟨10000, 500, 1000⟩

/-- `CheckAggregationOptions(int cache_entries, int flush_cache_entry_interval_ms,
int response_expiration_ms)`: `expiration_ms` is initialised with
`std::max(flush_cache_entry_interval_ms + 1, response_expiration_ms)`. -/
def CheckAggregationOptions.new (cache_entries flush_cache_entry_interval_ms
    response_expiration_ms : Int) : CheckAggregationOptions :=
  ⟨cache_entries, flush_cache_entry_interval_ms,
    max (addInt32 flush_cache_entry_interval_ms 1) response_expiration_ms⟩

/-- `ReportAggregationOptions()`: the default constructor. -/
def ReportAggregationOptions.default : ReportAggregationOptions :=
  ⟨10000, 1000⟩

/-- `ReportAggregationOptions(int cache_entries, int flush_cache_entry_interval_ms)`. -/
def ReportAggregationOptions.new (cache_entries flush_cache_entry_interval_ms : Int) :
    ReportAggregationOptions :=
  ⟨cache_entries, flush_cache_entry_interval_ms⟩

/-- Error kinds a construction expression could end in. -/
inductive ConfigError where
  | InvalidConfiguration
  deriving DecidableEq, Repr

/-- Outcome of evaluating the construction expression
`QuotaAggregationOptions(n, r, e)`.  The constructor is a member-initialiser
list with an empty body: there is no `throw`, no assertion and no validation,
so the outcome is always the constructed value. -/
def QuotaAggregationOptions.construct (cache_entries refresh_interval_ms
    expiration_interval_ms : Int) : Except ConfigError QuotaAggregationOptions :=
  Except.ok (QuotaAggregationOptions.new cache_entries refresh_interval_ms
    expiration_interval_ms)

/-- Outcome of evaluating `CheckAggregationOptions(n, f, e)`; as for Quota the
constructor has no failing path. -/
def CheckAggregationOptions.construct (cache_entries flush_cache_entry_interval_ms
    response_expiration_ms : Int) : Except ConfigError CheckAggregationOptions :=
  Except.ok (CheckAggregationOptions.new cache_entries flush_cache_entry_interval_ms
    response_expiration_ms)

/-- Outcome of evaluating `ReportAggregationOptions(n, f)`; no failing path. -/
def ReportAggregationOptions.construct (cache_entries flush_cache_entry_interval_ms : Int) :
    Except ConfigError ReportAggregationOptions :=
  Except.ok (ReportAggregationOptions.new cache_entries flush_cache_entry_interval_ms)

/-- A construction outcome is a rejection. -/
def isRejected {α : Type} (r : Except ConfigError α) : Bool :=
  match r with
  | Except.error _ => true
  | Except.ok _ => false

/-! ## The aggregation engine

`src/service_control_client_impl.h` declares the client façade; the generic
cache, the three aggregators and the body of `GetNextFlushInterval` live in
translation units that are not part of the sources at hand.  They are
modelled below from the written specification, sequentially: a call runs to
completion (transport included) before the next one starts.
-/

/-- Modelled from the spec: a request as the engine sees it.  The aggregator
sources are missing; the spec only requires an opaque comparable fingerprint,
and for Report a measurement that can be merged (summed). -/
structure Request where
  fingerprint : Nat
  amount : Nat
  deriving DecidableEq, Repr

/-- Modelled from the spec: cache-entry states of section 3 (the entry type of
the missing cache sources).  `absent` is the lack of a record and `expired` is
a `cached` entry whose window has passed, decided against the clock. -/
inductive Entry where
  | pending
  | cached (value : Nat) (insertedAt lastRefreshAt : Int)
  deriving DecidableEq, Repr

/-- Modelled from the spec: result of `Probe` (section 4.1; the cache sources
are missing). -/
inductive ProbeResult where
  | Hit (response : Nat)
  | Miss
  | InFlight
  deriving DecidableEq, Repr

/-- Modelled from the spec: the generic aggregation cache of section 4.1 (its
sources are missing): a capacity, the flush or refresh interval, the
expiration window (absent for Report, whose entries never expire) and one
entry per fingerprint. -/
structure AggregationCache where
  capacity : Int
  interval_ms : Int
  expiration_ms : Option Int
  entries : List (Nat × Entry)
  deriving DecidableEq, Repr

/-- Modelled from the spec: cache-disabled mode (missing cache sources).  The
spec names capacity 0; the header documents "Cache is disabled when
cache_entries <= 0", which includes it. -/
def AggregationCache.disabled (c : AggregationCache) : Bool :=
  decide (c.capacity ≤ 0)

/-- Modelled from the spec: the record stored for a fingerprint, if any
(missing cache sources). -/
def AggregationCache.find (c : AggregationCache) (fp : Nat) : Option Entry :=
  (c.entries.find? (fun p => p.1 == fp)).map Prod.snd

/-- Modelled from the spec: an entry is expired once its age reaches the
expiration window (missing cache sources; Report has no window). -/
def AggregationCache.isExpired (c : AggregationCache) (insertedAt now : Int) : Bool :=
  match c.expiration_ms with
  | none => false
  | some w => decide (w ≤ now - insertedAt)

/-- Modelled from the spec: `Probe(fingerprint)` of section 4.1 (missing cache
sources).  Disabled mode short-circuits to `Miss`; a `Hit` is returned only
while the entry is cached and not expired; a pending entry gives `InFlight`. -/
def AggregationCache.Probe (c : AggregationCache) (fp : Nat) (now : Int) : ProbeResult :=
  if c.disabled then ProbeResult.Miss
  else
    match c.find fp with
    | none => ProbeResult.Miss
    | some Entry.pending => ProbeResult.InFlight
    | some (Entry.cached v ins _) =>
        if c.isExpired ins now then ProbeResult.Miss else ProbeResult.Hit v

/-- Modelled from the spec: `Evict(fingerprint)` of section 4.1 (missing cache
sources). -/
def AggregationCache.Evict (c : AggregationCache) (fp : Nat) : AggregationCache :=
  ⟨c.capacity, c.interval_ms, c.expiration_ms, c.entries.filter (fun p => p.1 != fp)⟩

/-- Modelled from the spec: `Clear()` of section 4.1 (missing cache sources). -/
def AggregationCache.Clear (c : AggregationCache) : AggregationCache :=
  ⟨c.capacity, c.interval_ms, c.expiration_ms, []⟩

/-- Modelled from the spec: replace the record of a fingerprint (missing cache
sources); the helper behind `BeginPending` and `Commit`. -/
def AggregationCache.store (c : AggregationCache) (fp : Nat) (e : Entry) : AggregationCache :=
  ⟨c.capacity, c.interval_ms, c.expiration_ms,
    (fp, e) :: c.entries.filter (fun p => p.1 != fp)⟩

/-- Modelled from the spec: `BeginPending(fingerprint)` of section 4.1 (missing
cache sources): marks the fingerprint pending and reports success, or reports
a conflict when it is pending already.  Disabled mode records nothing. -/
def AggregationCache.BeginPending (c : AggregationCache) (fp : Nat) :
    AggregationCache × Bool :=
  if c.disabled then (c, true)
  else
    match c.find fp with
    | some Entry.pending => (c, false)
    | _ => (c.store fp Entry.pending, true)

/-- Modelled from the spec: the cached entries with their last refresh time
(missing cache sources); pending entries are never eviction targets. -/
def AggregationCache.cachedKeys (c : AggregationCache) : List (Nat × Int) :=
  c.entries.filterMap (fun p =>
    match p.2 with
    | Entry.pending => none
    | Entry.cached _ _ r => some (p.1, r))

/-- Modelled from the spec: the least-recently-refreshed cached or expired
entry, the eviction target of section 4.1 (missing cache sources). -/
def AggregationCache.coldest (c : AggregationCache) : Option Nat :=
  match c.cachedKeys with
  | [] => none
  | k :: ks => some (ks.foldl (fun best q => if q.2 < best.2 then q else best) k).1

/-- Modelled from the spec: `Commit(fingerprint, response, now)` of section 4.1
(missing cache sources).  A no-op store in disabled mode; otherwise, when the
key is not yet cached and the cache is at capacity, the coldest cached entry
is evicted first, and the response is stored with both timestamps at `now`. -/
def AggregationCache.Commit (c : AggregationCache) (fp : Nat) (response : Nat) (now : Int) :
    AggregationCache :=
  if c.disabled then c
  else
    let isNew : Bool :=
      match c.find fp with
      | some (Entry.cached _ _ _) => false
      | _ => true
    let room : AggregationCache :=
      if isNew && decide (c.capacity ≤ (c.cachedKeys.length : Int)) then
        match c.coldest with
        | some victim => c.Evict victim
        | none => c
      else c
    room.store fp (Entry.cached response now now)

/-- Modelled from the spec: the three specialisations of the engine, sections
4.2 to 4.4 (the aggregator sources are missing). -/
inductive Kind where
  | check
  | quota
  | report
  deriving DecidableEq, Repr

/-- Modelled from the spec: a per-kind aggregator wraps the generic cache
(section 2; the aggregator sources are missing). -/
structure Aggregator where
  kind : Kind
  cache : AggregationCache
  deriving DecidableEq, Repr

/-- Options of any of the three kinds, as declared in the header. -/
inductive AnyOptions where
  | check (o : CheckAggregationOptions)
  | quota (o : QuotaAggregationOptions)
  | report (o : ReportAggregationOptions)
  deriving DecidableEq, Repr

/-- The `num_entries` field of whichever options struct is held. -/
def AnyOptions.num_entries : AnyOptions → Int
  | AnyOptions.check o => o.num_entries
  | AnyOptions.quota o => o.num_entries
  | AnyOptions.report o => o.num_entries

/-- Modelled from the spec: constructing an aggregator from its options (the
aggregator sources are missing): an empty cache whose capacity is
`num_entries` and whose intervals are the configured ones. -/
def Aggregator.create : AnyOptions → Aggregator
  | AnyOptions.check o =>
      ⟨Kind.check, ⟨o.num_entries, o.flush_interval_ms, some o.expiration_ms, []⟩⟩
  | AnyOptions.quota o =>
      ⟨Kind.quota, ⟨o.num_entries, o.refresh_interval_ms, some o.expiration_interval_ms, []⟩⟩
  | AnyOptions.report o =>
      ⟨Kind.report, ⟨o.num_entries, o.flush_interval_ms, none, []⟩⟩

/-- Modelled from the spec: the state a call acts on (the aggregator sources
are missing): the aggregator and the log of requests handed to the transport,
oldest first. -/
structure ClientState where
  aggregator : Aggregator
  sent : List Request
  deriving DecidableEq, Repr

/-- Modelled from the spec: the miss path of sections 4.2 and 4.3 (missing
aggregator sources): mark pending, call the transport synchronously, commit
the response, return it. -/
def ClientState.remoteCall (transport : Request → Nat) (s : ClientState) (req : Request)
    (now : Int) : ClientState × Option Nat :=
  let begun := (s.aggregator.cache.BeginPending req.fingerprint).1
  let response := transport req
  (⟨⟨s.aggregator.kind, begun.Commit req.fingerprint response now⟩, s.sent ++ [req]⟩,
    some response)

/-- Modelled from the spec: one call on an aggregator, sections 4.2 to 4.4
(the aggregator sources are missing).  The answer is `none` when the caller
gets no response of its own: a Report that was merged, or a caller attached to
an in-flight call.

* Check: a `Hit` is answered from the cache, a `Miss` takes the miss path.
* Quota: as Check, but a `Hit` consumes one unit of the cached allowance and
  an exhausted allowance forces the remote call.
* Report: in disabled mode the request goes straight to the transport;
  otherwise it is merged into the accumulated entry, or a new one is made. -/
def ClientState.call (transport : Request → Nat) (s : ClientState) (req : Request)
    (now : Int) : ClientState × Option Nat :=
  let c := s.aggregator.cache
  match s.aggregator.kind with
  | Kind.check =>
      match c.Probe req.fingerprint now with
      | ProbeResult.Hit v => (s, some v)
      | ProbeResult.Miss => s.remoteCall transport req now
      | ProbeResult.InFlight => (s, none)
  | Kind.quota =>
      match c.Probe req.fingerprint now with
      | ProbeResult.Hit v =>
          if v = 0 then s.remoteCall transport req now
          else
            match c.find req.fingerprint with
            | some (Entry.cached _ ins r) =>
                (⟨⟨Kind.quota, c.store req.fingerprint (Entry.cached (v - 1) ins r)⟩, s.sent⟩,
                  some v)
            | _ => (s, some v)
      | ProbeResult.Miss => s.remoteCall transport req now
      | ProbeResult.InFlight => (s, none)
  | Kind.report =>
      if c.disabled then (⟨s.aggregator, s.sent ++ [req]⟩, some (transport req))
      else
        match c.find req.fingerprint with
        | some (Entry.cached acc ins r) =>
            (⟨⟨Kind.report, c.store req.fingerprint (Entry.cached (acc + req.amount) ins r)⟩,
              s.sent⟩, none)
        | _ => (⟨⟨Kind.report, c.Commit req.fingerprint req.amount now⟩, s.sent⟩, none)

/-- Modelled from the spec: the same request issued back-to-back, once per
clock reading in `nows` (the aggregator sources are missing). -/
def ClientState.repeatCall (transport : Request → Nat) (s : ClientState) (req : Request) :
    List Int → ClientState
  | [] => s
  | now :: rest => ClientState.repeatCall transport (s.call transport req now).1 req rest

/-- Modelled from the spec: a fresh client state for the given options, with
nothing sent yet (the aggregator sources are missing). -/
def ClientState.init (o : AnyOptions) : ClientState :=
  ⟨Aggregator.create o, []⟩

/-! ## Flush scheduling -/

/-- Options of the three aggregators of one client, as the façade holds them. -/
structure ServiceControlClientOptions where
  check_options : CheckAggregationOptions
  quota_options : QuotaAggregationOptions
  report_options : ReportAggregationOptions
  deriving DecidableEq, Repr

/-- Modelled from the spec: which kinds still have a flush or refresh pending
(the body of `GetNextFlushInterval` and the aggregators it asks are missing;
the spec speaks of "the three configured intervals still pending"). -/
structure PendingKinds where
  check : Bool
  quota : Bool
  report : Bool
  deriving DecidableEq, Repr

/-- Modelled from the spec: the configured intervals of the kinds that are
still pending (missing body of `GetNextFlushInterval`). -/
def pendingIntervals (o : ServiceControlClientOptions) (p : PendingKinds) : List Int :=
  (if p.check then [o.check_options.flush_interval_ms] else []) ++
  (if p.quota then [o.quota_options.refresh_interval_ms] else []) ++
  (if p.report then [o.report_options.flush_interval_ms] else [])

/-- Modelled from the spec: `ServiceControlClientImpl::GetNextFlushInterval()`,
declared in `service_control_client_impl.h` with its body missing: the
minimum of the configured intervals still pending; no value when none is. -/
def GetNextFlushInterval (o : ServiceControlClientOptions) (p : PendingKinds) : Option Int :=
  match pendingIntervals o p with
  | [] => none
  | x :: xs => some (xs.foldl min x)

/-! ## Concurrent callers

Threads are modelled by interleaving.  Every operation of section 4.1 is one
atomic step on the cache, and a schedule is any list of such steps, issued by
whichever thread runs next.
-/

/-- Modelled from the spec: the atomic mutations of the cache named in section
4.1 (the cache sources are missing), as any thread may schedule them. -/
inductive CacheStep where
  | beginPending (fp : Nat)
  | commit (fp : Nat) (response : Nat) (now : Int)
  | evict (fp : Nat)
  | clear
  deriving DecidableEq, Repr

/-- Modelled from the spec: the effect of one atomic step on the cache
(missing cache sources). -/
def AggregationCache.step (c : AggregationCache) : CacheStep → AggregationCache
  | CacheStep.beginPending fp => (c.BeginPending fp).1
  | CacheStep.commit fp response now => c.Commit fp response now
  | CacheStep.evict fp => c.Evict fp
  | CacheStep.clear => c.Clear

/-- Modelled from the spec: the cache after a schedule of atomic steps
(missing cache sources). -/
def AggregationCache.run (c : AggregationCache) : List CacheStep → AggregationCache
  | [] => c
  | st :: rest => AggregationCache.run (c.step st) rest

/-- Modelled from the spec: what a caller thread does between entering a call
and the transport's completion, sections 4.1 and 4.2 (the aggregator sources
are missing).  `Probe` and `BeginPending` are separate atomic steps, so two
callers may both see `Miss` before either marks the entry pending. -/
inductive CallerStep where
  | probe (caller : Nat) (now : Int)
  | beginPending (caller : Nat)
  deriving DecidableEq, Repr

/-- Modelled from the spec: the callers of one fingerprint and the cache they
share (the aggregator sources are missing).  `probed` holds the callers that
saw `Miss` and have yet to call `BeginPending`, `calling` those whose own
transport call is outstanding, `waiting` those attached to an in-flight call,
`answers` the responses handed out, `sent` the transport log. -/
structure DedupState where
  cache : AggregationCache
  probed : List Nat
  calling : List Nat
  waiting : List Nat
  answers : List (Nat × Nat)
  sent : List Request
  deriving DecidableEq, Repr

/-- Modelled from the spec: no caller has arrived yet (missing aggregator
sources). -/
def DedupState.init (c : AggregationCache) : DedupState :=
  ⟨c, [], [], [], [], []⟩

/-- Modelled from the spec: one atomic step of a caller of `req` (sections 4.1
and 4.2; the aggregator sources are missing).

* `probe`: a `Hit` answers the caller at once, `InFlight` attaches it to the
  pending call, `Miss` sends it on to `BeginPending`.
* `beginPending`, for a caller that saw `Miss`: on success the caller issues
  the transport call; on a conflict it waits instead. -/
def DedupState.step (req : Request) (s : DedupState) : CallerStep → DedupState
  | CallerStep.probe caller now =>
      match s.cache.Probe req.fingerprint now with
      | ProbeResult.Hit v =>
          ⟨s.cache, s.probed, s.calling, s.waiting, s.answers ++ [(caller, v)], s.sent⟩
      | ProbeResult.Miss =>
          ⟨s.cache, s.probed ++ [caller], s.calling, s.waiting, s.answers, s.sent⟩
      | ProbeResult.InFlight =>
          ⟨s.cache, s.probed, s.calling, s.waiting ++ [caller], s.answers, s.sent⟩
  | CallerStep.beginPending caller =>
      if caller ∈ s.probed then
        match s.cache.BeginPending req.fingerprint with
        | (c, true) =>
            ⟨c, s.probed.erase caller, s.calling ++ [caller], s.waiting, s.answers,
              s.sent ++ [req]⟩
        | (c, false) =>
            ⟨c, s.probed.erase caller, s.calling, s.waiting ++ [caller], s.answers, s.sent⟩
      else s

/-- Modelled from the spec: the state after a schedule of caller steps
(missing aggregator sources). -/
def DedupState.run (req : Request) (s : DedupState) : List CallerStep → DedupState
  | [] => s
  | st :: rest => DedupState.run req (s.step req st) rest

theorem wrapInt32_of_isInt32 (x : Int) (h : isInt32 x) : wrapInt32 x = x := by
  unfold isInt32 INT_MIN INT_MAX at h
  unfold wrapInt32
  omega

theorem addInt32_one_of_lt_max (f : Int) (hf : isInt32 f) (hlt : f < INT_MAX) :
    addInt32 f 1 = f + 1 := by
  unfold isInt32 INT_MIN INT_MAX at hf
  unfold INT_MAX at hlt
  unfold addInt32 wrapInt32
  omega

theorem addInt32_max_one : addInt32 INT_MAX 1 = INT_MIN := by
  decide


/-! ## Construction of the option structs -/

/-- C1, as stated, fails: `CheckAggregationOptions(0, 5, 3)` has
`response_expiration_ms <= flush_cache_entry_interval_ms`, yet construction is
not rejected; it yields the options value with `expiration_ms = 6`. -/
theorem check_construct_not_rejected_at_0_5_3 :
    isInt32 5 ∧ isInt32 3 ∧ (3 : Int) ≤ 5 ∧
    CheckAggregationOptions.construct 0 5 3 = Except.ok ⟨0, 5, 6⟩ ∧
    isRejected (CheckAggregationOptions.construct 0 5 3) = false :=
  ⟨by decide, by decide, by decide, rfl, rfl⟩

/-- C1, amended: for every 32-bit `f` and every `e <= f`, construction of
`CheckAggregationOptions(n, f, e)` is never rejected; it produces an options
value with `num_entries = n`, `flush_interval_ms = f`, and, when
`f < INT_MAX`, `expiration_ms = f + 1`. -/
theorem check_construct_clamps_short_expiration (n f e : Int)
    (hf : isInt32 f) (hle : e ≤ f) :
    isRejected (CheckAggregationOptions.construct n f e) = false ∧
    ∃ o, CheckAggregationOptions.construct n f e = Except.ok o ∧
      o.num_entries = n ∧ o.flush_interval_ms = f ∧
      (f < INT_MAX → o.expiration_ms = f + 1) := by
  refine ⟨rfl, CheckAggregationOptions.new n f e, rfl, rfl, rfl, ?_⟩
  intro hlt
  have hadd := addInt32_one_of_lt_max f hf hlt
  have : e ≤ f + 1 := by omega
  simp only [CheckAggregationOptions.new, hadd]
  exact max_eq_left this

/-- Witness for C1 amended, at `CheckAggregationOptions(7, 500, 100)`. -/
theorem check_construct_clamps_short_expiration_witness :
    isInt32 500 ∧ (100 : Int) ≤ 500 ∧
    isRejected (CheckAggregationOptions.construct 7 500 100) = false ∧
    ∃ o, CheckAggregationOptions.construct 7 500 100 = Except.ok o ∧
      o.num_entries = 7 ∧ o.flush_interval_ms = 500 ∧ o.expiration_ms = 501 :=
  have h := check_construct_clamps_short_expiration 7 500 100 (by decide) (by decide)
  ⟨by decide, by decide, h.1,
    h.2.elim fun o ho => ⟨o, ho.1, ho.2.1, ho.2.2.1, ho.2.2.2 (by decide)⟩⟩

/-- C2, evaluated at the failing input: with
`flush_cache_entry_interval_ms = INT_MAX` the 32-bit sum
`flush_cache_entry_interval_ms + 1` wraps to `INT_MIN`, so
`CheckAggregationOptions(0, INT_MAX, 0)` stores `expiration_ms = 0`, which is
not larger than `flush_interval_ms = INT_MAX`. -/
theorem check_expiration_not_above_flush_at_int_max :
    isInt32 0 ∧ isInt32 INT_MAX ∧
    (CheckAggregationOptions.new 0 INT_MAX 0).flush_interval_ms = 2147483647 ∧
    (CheckAggregationOptions.new 0 INT_MAX 0).expiration_ms = 0 ∧
    ¬ ((CheckAggregationOptions.new 0 INT_MAX 0).expiration_ms >
        (CheckAggregationOptions.new 0 INT_MAX 0).flush_interval_ms) := by
  decide

/-- C3: for 32-bit `f`, `e` with `e > f`, construction of
`CheckAggregationOptions(n, f, e)` succeeds and stores `n`, `f` and `e`
unmodified. -/
theorem check_construct_keeps_valid_expiration (n f e : Int)
    (hf : isInt32 f) (he : isInt32 e) (hgt : e > f) :
    CheckAggregationOptions.construct n f e = Except.ok ⟨n, f, e⟩ := by
  have hlt : f < INT_MAX := by
    unfold isInt32 INT_MIN INT_MAX at he
    unfold INT_MAX
    omega
  have hadd := addInt32_one_of_lt_max f hf hlt
  have hle : f + 1 ≤ e := by omega
  simp only [CheckAggregationOptions.construct, CheckAggregationOptions.new, hadd,
    max_eq_right hle]

/-- Witness for C3, at `CheckAggregationOptions(10000, 500, 1000)`. -/
theorem check_construct_keeps_valid_expiration_witness :
    isInt32 500 ∧ isInt32 1000 ∧ (1000 : Int) > 500 ∧
    CheckAggregationOptions.construct 10000 500 1000 = Except.ok ⟨10000, 500, 1000⟩ :=
  ⟨by decide, by decide, by decide,
    check_construct_keeps_valid_expiration 10000 500 1000 (by decide) (by decide) (by decide)⟩

/-- C4, as stated, fails: with `cache_entries = -1` none of the three
constructions is rejected, and each stores `-1` in `num_entries`. -/
theorem negative_capacity_not_rejected_at_minus_one :
    (-1 : Int) < 0 ∧
    QuotaAggregationOptions.construct (-1) 1000 60000 = Except.ok ⟨-1, 1000, 60000⟩ ∧
    CheckAggregationOptions.construct (-1) 500 1000 = Except.ok ⟨-1, 500, 1000⟩ ∧
    ReportAggregationOptions.construct (-1) 1000 = Except.ok ⟨-1, 1000⟩ ∧
    isRejected (QuotaAggregationOptions.construct (-1) 1000 60000) = false ∧
    isRejected (CheckAggregationOptions.construct (-1) 500 1000) = false ∧
    isRejected (ReportAggregationOptions.construct (-1) 1000) = false :=
  ⟨by decide, rfl, rfl, rfl, rfl, rfl, rfl⟩

/-- C4, amended: for each of the three option kinds and every negative
`cache_entries`, construction is not rejected and the negative capacity is
stored unchanged in `num_entries`. -/
theorem negative_capacity_is_stored (n r e f : Int) (hn : n < 0) :
    (∃ q, QuotaAggregationOptions.construct n r e = Except.ok q ∧
        q.num_entries = n ∧ q.num_entries < 0) ∧
    (∃ c, CheckAggregationOptions.construct n f e = Except.ok c ∧
        c.num_entries = n ∧ c.num_entries < 0) ∧
    (∃ p, ReportAggregationOptions.construct n f = Except.ok p ∧
        p.num_entries = n ∧ p.num_entries < 0) :=
  ⟨⟨_, rfl, rfl, hn⟩, ⟨_, rfl, rfl, hn⟩, ⟨_, rfl, rfl, hn⟩⟩

/-- Witness for C4 amended, at `cache_entries = -5`. -/
theorem negative_capacity_is_stored_witness :
    (-5 : Int) < 0 ∧
    (∃ q, QuotaAggregationOptions.construct (-5) 1000 60000 = Except.ok q ∧
        q.num_entries = -5 ∧ q.num_entries < 0) ∧
    (∃ c, CheckAggregationOptions.construct (-5) 500 60000 = Except.ok c ∧
        c.num_entries = -5 ∧ c.num_entries < 0) ∧
    (∃ p, ReportAggregationOptions.construct (-5) 500 = Except.ok p ∧
        p.num_entries = -5 ∧ p.num_entries < 0) :=
  ⟨by decide, negative_capacity_is_stored (-5) 1000 60000 500 (by decide)⟩

/-- C5: every constructor accepts any arguments, `cache_entries <= 0`
included, and stores them unchanged: all three fields of Quota (also when the
expiration is not above the refresh interval), `num_entries` and
`flush_interval_ms` of Check, both fields of Report.  The one field that can
differ from its argument is `CheckAggregationOptions::expiration_ms`, as it
does for `CheckAggregationOptions(0, 5, 3)`. -/
theorem constructors_store_arguments (n r e f : Int) :
    QuotaAggregationOptions.construct n r e = Except.ok ⟨n, r, e⟩ ∧
    (∃ c, CheckAggregationOptions.construct n f e = Except.ok c ∧
        c.num_entries = n ∧ c.flush_interval_ms = f) ∧
    ReportAggregationOptions.construct n f = Except.ok ⟨n, f⟩ ∧
    (QuotaAggregationOptions.new2 n r).num_entries = n ∧
    (QuotaAggregationOptions.new2 n r).refresh_interval_ms = r ∧
    (CheckAggregationOptions.new 0 5 3).expiration_ms ≠ 3 :=
  ⟨rfl, ⟨_, rfl, rfl, rfl⟩, rfl, rfl, rfl, by decide⟩

/-- C9: for 32-bit `f < INT_MAX` and every `e`, the stored `expiration_ms`
of `CheckAggregationOptions(n, f, e)` is `max (f + 1) e`; it is larger than
`flush_interval_ms`, and when `e <= f` it is exactly `f + 1`, the least
integer larger than `flush_interval_ms`. -/
theorem check_expiration_eq_max (n f e : Int)
    (hf : isInt32 f) (hlt : f < INT_MAX) :
    (CheckAggregationOptions.new n f e).expiration_ms = max (f + 1) e ∧
    (CheckAggregationOptions.new n f e).flush_interval_ms <
      (CheckAggregationOptions.new n f e).expiration_ms ∧
    (e ≤ f → (CheckAggregationOptions.new n f e).expiration_ms = f + 1 ∧
      ∀ x : Int, (CheckAggregationOptions.new n f e).flush_interval_ms < x →
        (CheckAggregationOptions.new n f e).expiration_ms ≤ x) := by
  have hadd := addInt32_one_of_lt_max f hf hlt
  simp only [CheckAggregationOptions.new, hadd]
  refine ⟨trivial, ?_, ?_⟩
  · exact lt_of_lt_of_le (by omega) (le_max_left (f + 1) e)
  · intro hle
    have h1 : e ≤ f + 1 := by omega
    rw [max_eq_left h1]
    exact ⟨rfl, fun x hx => by omega⟩

/-- Witness for C9, at `CheckAggregationOptions(1, 500, 100)`. -/
theorem check_expiration_eq_max_witness :
    isInt32 500 ∧ (500 : Int) < INT_MAX ∧ (100 : Int) ≤ 500 ∧
    (CheckAggregationOptions.new 1 500 100).expiration_ms = max (500 + 1) 100 ∧
    (CheckAggregationOptions.new 1 500 100).flush_interval_ms <
      (CheckAggregationOptions.new 1 500 100).expiration_ms ∧
    (CheckAggregationOptions.new 1 500 100).expiration_ms = 500 + 1 :=
  have h := check_expiration_eq_max 1 500 100 (by decide) (by decide)
  ⟨by decide, by decide, by decide, h.1, h.2.1, (h.2.2 (by decide)).1⟩

/-- C10: for all `n`, `f`, `e` (every 32-bit triple, `f = INT_MAX` where
`f + 1` wraps included) the stored `expiration_ms` of
`CheckAggregationOptions(n, f, e)` is at least `e`, and for fixed `n`, `f` it
is monotone non-decreasing in `e`. -/
theorem check_expiration_ge_requested (n f e e2 : Int)
    (hle : e ≤ e2) :
    e ≤ (CheckAggregationOptions.new n f e).expiration_ms ∧
    (CheckAggregationOptions.new n f e).expiration_ms ≤
      (CheckAggregationOptions.new n f e2).expiration_ms := by
  simp only [CheckAggregationOptions.new]
  exact ⟨le_max_right _ _, max_le_max (le_refl _) hle⟩

/-- Witness for C10, at the wrapping case `f = INT_MAX`. -/
theorem check_expiration_ge_requested_witness :
    (5 : Int) ≤ 9 ∧
    (5 : Int) ≤ (CheckAggregationOptions.new 0 INT_MAX 5).expiration_ms ∧
    (CheckAggregationOptions.new 0 INT_MAX 5).expiration_ms ≤
      (CheckAggregationOptions.new 0 INT_MAX 9).expiration_ms :=
  ⟨by decide, check_expiration_ge_requested 0 INT_MAX 5 9 (by decide)⟩

/-! ## Flush scheduling -/

theorem foldl_min_le_init (xs : List Int) (x : Int) : xs.foldl min x ≤ x := by
  induction xs generalizing x with
  | nil => exact le_refl x
  | cons y ys ih => exact le_trans (ih (min x y)) (min_le_left x y)

theorem foldl_min_le_of_mem (xs : List Int) (x y : Int) (hy : y ∈ xs) :
    xs.foldl min x ≤ y := by
  induction xs generalizing x with
  | nil => cases hy
  | cons z zs ih =>
    rcases List.mem_cons.mp hy with h | h
    · subst h
      exact le_trans (foldl_min_le_init zs (min x y)) (min_le_right x y)
    · exact ih (min x z) h

theorem foldl_min_mem (xs : List Int) (x : Int) : xs.foldl min x ∈ x :: xs := by
  induction xs generalizing x with
  | nil => simp
  | cons z zs ih =>
    have h := ih (min x z)
    rcases List.mem_cons.mp h with h1 | h1
    · rcases min_choice x z with hc | hc
      · rw [List.foldl_cons, h1, hc]; simp
      · rw [List.foldl_cons, h1, hc]; simp
    · rw [List.foldl_cons]
      exact List.mem_cons_of_mem _ (List.mem_cons_of_mem _ h1)

theorem GetNextFlushInterval_spec (o : ServiceControlClientOptions) (p : PendingKinds)
    (m : Int) (h : GetNextFlushInterval o p = some m) :
    m ∈ pendingIntervals o p ∧ ∀ x ∈ pendingIntervals o p, m ≤ x := by
  unfold GetNextFlushInterval at h
  cases hl : pendingIntervals o p with
  | nil => rw [hl] at h; cases h
  | cons y ys =>
    rw [hl] at h
    simp only [Option.some.injEq] at h
    subst h
    refine ⟨foldl_min_mem ys y, ?_⟩
    intro x hx
    rcases List.mem_cons.mp hx with hx | hx
    · subst hx; exact foldl_min_le_init ys x
    · exact foldl_min_le_of_mem ys y x hx

theorem mem_pendingIntervals (o : ServiceControlClientOptions) (p : PendingKinds) (x : Int) :
    x ∈ pendingIntervals o p ↔
      (p.check = true ∧ x = o.check_options.flush_interval_ms) ∨
      (p.quota = true ∧ x = o.quota_options.refresh_interval_ms) ∨
      (p.report = true ∧ x = o.report_options.flush_interval_ms) := by
  unfold pendingIntervals
  cases p.check <;> cases p.quota <;> cases p.report <;> simp

/-- C6: whenever at least one kind is still pending, `GetNextFlushInterval`
returns a value; the value it returns is at most the configured interval of
every pending kind (Check flush, Quota refresh, Report flush) and equals the
interval of one pending kind. -/
theorem next_flush_interval_is_min_of_pending (o : ServiceControlClientOptions)
    (p : PendingKinds) :
    ((p.check = true ∨ p.quota = true ∨ p.report = true) →
      ∃ m, GetNextFlushInterval o p = some m) ∧
    ∀ m, GetNextFlushInterval o p = some m →
      (p.check = true → m ≤ o.check_options.flush_interval_ms) ∧
      (p.quota = true → m ≤ o.quota_options.refresh_interval_ms) ∧
      (p.report = true → m ≤ o.report_options.flush_interval_ms) ∧
      ((p.check = true ∧ m = o.check_options.flush_interval_ms) ∨
       (p.quota = true ∧ m = o.quota_options.refresh_interval_ms) ∨
       (p.report = true ∧ m = o.report_options.flush_interval_ms)) := by
  constructor
  · intro hp
    have hne : pendingIntervals o p ≠ [] := by
      intro hnil
      have hmem := mem_pendingIntervals o p
      rw [hnil] at hmem
      rcases hp with h | h | h
      · exact List.not_mem_nil _ ((hmem _).mpr (Or.inl ⟨h, rfl⟩))
      · exact List.not_mem_nil _ ((hmem _).mpr (Or.inr (Or.inl ⟨h, rfl⟩)))
      · exact List.not_mem_nil _ ((hmem _).mpr (Or.inr (Or.inr ⟨h, rfl⟩)))
    unfold GetNextFlushInterval
    cases hl : pendingIntervals o p with
    | nil => exact absurd hl hne
    | cons y ys => exact ⟨_, rfl⟩
  · intro m hm
    obtain ⟨hmem, hle⟩ := GetNextFlushInterval_spec o p m hm
    refine ⟨?_, ?_, ?_, (mem_pendingIntervals o p m).mp hmem⟩
    · intro h
      exact hle _ ((mem_pendingIntervals o p _).mpr (Or.inl ⟨h, rfl⟩))
    · intro h
      exact hle _ ((mem_pendingIntervals o p _).mpr (Or.inr (Or.inl ⟨h, rfl⟩)))
    · intro h
      exact hle _ ((mem_pendingIntervals o p _).mpr (Or.inr (Or.inr ⟨h, rfl⟩)))

/-- Witness for C6: the default options with Check and Quota pending (flush
500 ms, refresh 1000 ms) give 500 ms. -/
theorem next_flush_interval_is_min_of_pending_witness :
    GetNextFlushInterval
      ⟨CheckAggregationOptions.default, QuotaAggregationOptions.default,
        ReportAggregationOptions.default⟩ ⟨true, true, false⟩ = some 500 ∧
    (500 : Int) ≤ CheckAggregationOptions.default.flush_interval_ms ∧
    (500 : Int) ≤ QuotaAggregationOptions.default.refresh_interval_ms :=
  have h := (next_flush_interval_is_min_of_pending
    ⟨CheckAggregationOptions.default, QuotaAggregationOptions.default,
      ReportAggregationOptions.default⟩ ⟨true, true, false⟩).2 500 (by decide)
  ⟨by decide, h.1 rfl, h.2.1 rfl⟩

/-! ## Disabled cache -/

theorem Probe_of_disabled (c : AggregationCache) (hd : c.disabled = true) (fp : Nat)
    (now : Int) : c.Probe fp now = ProbeResult.Miss := by
  unfold AggregationCache.Probe
  rw [if_pos hd]

theorem BeginPending_of_disabled (c : AggregationCache) (hd : c.disabled = true) (fp : Nat) :
    c.BeginPending fp = (c, true) := by
  unfold AggregationCache.BeginPending
  rw [if_pos hd]

theorem Commit_of_disabled (c : AggregationCache) (hd : c.disabled = true) (fp v : Nat)
    (now : Int) : c.Commit fp v now = c := by
  unfold AggregationCache.Commit
  rw [if_pos hd]

theorem call_of_disabled (transport : Request → Nat) (s : ClientState)
    (hd : s.aggregator.cache.disabled = true) (req : Request) (now : Int) :
    s.call transport req now = (⟨s.aggregator, s.sent ++ [req]⟩, some (transport req)) := by
  obtain ⟨⟨kind, cache⟩, sent⟩ := s
  simp only at hd
  cases kind
  · simp only [ClientState.call, ClientState.remoteCall, Probe_of_disabled cache hd,
      BeginPending_of_disabled cache hd, Commit_of_disabled cache hd]
  · simp only [ClientState.call, ClientState.remoteCall, Probe_of_disabled cache hd,
      BeginPending_of_disabled cache hd, Commit_of_disabled cache hd]
  · simp only [ClientState.call, hd, if_true]

theorem repeatCall_of_disabled (transport : Request → Nat) (req : Request) (nows : List Int)
    (s : ClientState) (hd : s.aggregator.cache.disabled = true) :
    ClientState.repeatCall transport s req nows =
      ⟨s.aggregator, s.sent ++ List.replicate nows.length req⟩ := by
  induction nows generalizing s with
  | nil => simp [ClientState.repeatCall]
  | cons now rest ih =>
    rw [ClientState.repeatCall, call_of_disabled transport s hd req now]
    rw [ih ⟨s.aggregator, s.sent ++ [req]⟩ hd]
    simp [List.replicate_succ]

theorem create_disabled_of_zero (o : AnyOptions) (h : o.num_entries = 0) :
    (Aggregator.create o).cache.disabled = true ∧ (Aggregator.create o).cache.entries = [] := by
  cases o <;>
    simp_all [AnyOptions.num_entries, Aggregator.create, AggregationCache.disabled]

/-- With the cache enabled the model does cache: a Check aggregator with
`num_entries = 2`, `expiration_ms = 1000` and one request issued at times
0, 1, 2, 999, 1000, 1001 calls the transport twice (at 0, and at 1000 when
the entry has expired), and a Report aggregator only accumulates. -/
theorem enabled_cache_serves_hits :
    (ClientState.repeatCall (fun _ => 3)
      (ClientState.init (AnyOptions.check (CheckAggregationOptions.new 2 500 1000)))
      ⟨7, 0⟩ [0, 1, 2, 999, 1000, 1001]).sent.length = 2 ∧
    (ClientState.repeatCall (fun _ => 3)
      (ClientState.init (AnyOptions.report (ReportAggregationOptions.new 2 500)))
      ⟨7, 5⟩ [0, 1, 2]).sent.length = 0 := by
  decide

/-- C7: for an aggregator of any kind created from options with
`num_entries = 0`, every call hands the request to the transport and answers
with the transport's response; `k` identical requests issued back-to-back
append exactly `k` entries to the transport log, the cache stays empty, and
`Probe` answers `Miss` for every fingerprint at every time, before and after. -/
theorem disabled_cache_one_transport_call_per_request (o : AnyOptions)
    (h : o.num_entries = 0) (transport : Request → Nat) (req : Request)
    (log : List Request) (nows : List Int) :
    (∀ now, (ClientState.call transport ⟨Aggregator.create o, log⟩ req now) =
      (⟨Aggregator.create o, log ++ [req]⟩, some (transport req))) ∧
    (ClientState.repeatCall transport ⟨Aggregator.create o, log⟩ req nows).sent =
      log ++ List.replicate nows.length req ∧
    (ClientState.repeatCall transport ⟨Aggregator.create o, log⟩ req nows).sent.length =
      log.length + nows.length ∧
    (ClientState.repeatCall transport ⟨Aggregator.create o, log⟩ req nows).aggregator.cache.entries
      = [] ∧
    (∀ fp now, (Aggregator.create o).cache.Probe fp now = ProbeResult.Miss) ∧
    (∀ fp now, (ClientState.repeatCall transport ⟨Aggregator.create o, log⟩ req
      nows).aggregator.cache.Probe fp now = ProbeResult.Miss) := by
  obtain ⟨hd, hempty⟩ := create_disabled_of_zero o h
  have hrun := repeatCall_of_disabled transport req nows ⟨Aggregator.create o, log⟩ hd
  refine ⟨fun now => call_of_disabled transport _ hd req now, ?_, ?_, ?_, ?_, ?_⟩
  · rw [hrun]
  · rw [hrun]; simp
  · rw [hrun]; exact hempty
  · exact fun fp now => Probe_of_disabled _ hd fp now
  · rw [hrun]; exact fun fp now => Probe_of_disabled _ hd fp now

/-- Witness for C7: a Check aggregator with `num_entries = 0`, the request
with fingerprint 7 issued three times at times 0, 1, 2. -/
theorem disabled_cache_one_transport_call_per_request_witness :
    (AnyOptions.check (CheckAggregationOptions.new 0 500 1000)).num_entries = 0 ∧
    (ClientState.repeatCall (fun _ => 1)
      ⟨Aggregator.create (AnyOptions.check (CheckAggregationOptions.new 0 500 1000)), []⟩
      ⟨7, 0⟩ [0, 1, 2]).sent = [] ++ List.replicate 3 ⟨7, 0⟩ ∧
    (∀ fp now, (Aggregator.create (AnyOptions.check
      (CheckAggregationOptions.new 0 500 1000))).cache.Probe fp now = ProbeResult.Miss) :=
  have h := disabled_cache_one_transport_call_per_request
    (AnyOptions.check (CheckAggregationOptions.new 0 500 1000)) rfl (fun _ => 1) ⟨7, 0⟩ []
    [0, 1, 2]
  ⟨rfl, h.2.1, h.2.2.2.2.1⟩

/-! ## Concurrent callers -/

end google.service_control_client
